import Mathlib

/-!
# Verification of the food-delivery dispatch simulation

Shallow embedding of `src/food_dis_sim.py` (functions `food_delivery`,
`handle_order`, `run_simulation`).  Virtual time and random draws are
rationals.  The discrete-event engine and the random-variate generator the
program delegates to (the `simpy` environment/resource and
`random.expovariate`) are not part of the repository; where their behaviour
decides a property they are modelled from the spec (sections 4.1--4.4):
events execute while `time ≤ horizon`, a resource with non-positive
capacity is an invalid configuration, resource grants are FIFO, and the
exponential sampler rejects a non-positive rate with `InvalidParameter`.

The random source is represented by the list of samples it produces: entry
`k` holds the inter-arrival sample drawn before order `k+1` is spawned
(line 26 of the source) and the service sample drawn for that order at
grant time (line 37).  A terminating run consumes finitely many draws, so
a finite list of pairs covers every run: the simulation stops spawning as
soon as an arrival would fall past the horizon, exactly as the generator
process is never resumed past the horizon.
-/

namespace FoodSim

/-- Error taxonomy of the spec (section 7) plus the division-by-zero failure
mode of the Python runtime. -/
inductive SimError where
  | invalidConfiguration
  | invalidParameter
  | zeroDivisionError
deriving DecidableEq

/-- Modelled from the spec: the RandomVariate Generator
(`exponential(rate > 0) -> real ≥ 0`, `InvalidParameter` on `rate ≤ 0`);
`random.expovariate` is library code, not in the repository.  The value
`u` is the sample the seeded exponential source produces for this draw. -/
def expovariate (rate : ℚ) (u : ℚ) : Except SimError ℚ :=
  if rate ≤ 0 then .error .invalidParameter else .ok u

/-- Line 26 of the source: `interarrival = random.expovariate(arrival_rate)`. -/
def interarrival_sample (arrival_rate u : ℚ) : Except SimError ℚ :=
  expovariate arrival_rate u

/-- Line 37 of the source:
`service_time = random.expovariate(1.0 / service_time_mean)`.
The Python division `1.0 / service_time_mean` raises `ZeroDivisionError`
when the mean is zero, before the sampler is called. -/
def service_sample (service_mean u : ℚ) : Except SimError ℚ :=
  if service_mean = 0 then .error .zeroDivisionError
  else expovariate (1 / service_mean) u

/-- What `handle_order` computes for one spawned order: `arrival` is
`arrival_time` (line 33), `start` the grant instant (so `start - arrival`
is `wait_time`, line 36), `finish` the end of service
(so `finish - arrival` is `system_time`, line 39). -/
structure OrderRec where
  id : ℕ
  arrival : ℚ
  start : ℚ
  finish : ℚ
deriving DecidableEq

/-- Minimum of a list of rationals (`0` for the empty list; the simulation
only evaluates it on the non-empty list of driver free-times). -/
def listMin : List ℚ → ℚ
  | [] => 0
  | [x] => x
  | x :: y :: ys => min x (listMin (y :: ys))

/-- Replace the first occurrence of `m` in the list by `v`. -/
def replaceFirst (l : List ℚ) (m v : ℚ) : List ℚ :=
  match l with
  | [] => []
  | x :: xs => if x = m then v :: xs else x :: replaceFirst xs m v

/-- Replace one minimal element of the list by `v`: the driver that frees
up earliest takes the new service and is next free at `v`. -/
def replaceMin (l : List ℚ) (v : ℚ) : List ℚ :=
  replaceFirst l (listMin l) v

/-- The coupled `food_delivery` / `handle_order` processes over the
spec-modelled engine (events run while `time ≤ horizon`, FIFO resource).
`frees` holds, per driver, the virtual time at which that driver is next
free.  For each draw pair `(a, s)`: the generator wakes at
`clock + a`; if that is past the horizon the generator is never resumed
and no further order exists; otherwise order `k` is spawned there,
requests a driver (requests reach the pool in spawn order, so the FIFO
grant instant is `max` of its arrival and the earliest driver free-time)
and would finish service `s` later.  The record is produced for every
spawned order; whether its completion event runs (and so whether it is
recorded) is the later filter `finish ≤ horizon`. -/
def simCore (T : ℚ) : List (ℚ × ℚ) → ℚ → ℕ → List ℚ → List OrderRec
  | [], _, _, _ => []
  | (a, s) :: rest, clock, k, frees =>
    let arr := clock + a
    if arr ≤ T then
      let st := max arr (listMin frees)
      ⟨k, arr, st, st + s⟩ :: simCore T rest arr (k + 1) (replaceMin frees (st + s))
    else []

/-- All orders spawned by the arrival process during a run
(`env.process(handle_order(...))`, line 29): ids start at 1
(`order_id += 1` from `order_id = 0`), one driver pool of
`num_drivers` units all free at time 0. -/
def spawnedOrders (num_drivers : ℤ) (sim_duration : ℚ)
    (draws : List (ℚ × ℚ)) : List OrderRec :=
  simCore sim_duration draws 0 1 (List.replicate num_drivers.toNat 0)

/-- Completion-order comparison: completion events fire in
`(finish time, scheduling order)` order, and service timeouts are
scheduled in grant order, which follows id order. -/
def insertByCompletion (r : OrderRec) : List OrderRec → List OrderRec
  | [] => [r]
  | x :: xs =>
    if r.finish < x.finish ∨ (r.finish = x.finish ∧ r.id ≤ x.id) then
      r :: x :: xs
    else x :: insertByCompletion r xs

/-- Sort records into completion order. -/
def sortByCompletion : List OrderRec → List OrderRec
  | [] => []
  | x :: xs => insertByCompletion x (sortByCompletion xs)

/-- The orders whose completion event executes within the horizon, in the
order their records are appended to `results` (lines 41--43). -/
def completedOrders (num_drivers : ℤ) (sim_duration : ℚ)
    (draws : List (ℚ × ℚ)) : List OrderRec :=
  sortByCompletion
    ((spawnedOrders num_drivers sim_duration draws).filter
      (fun r => r.finish ≤ sim_duration))

/-- The `results` dictionary of the source (line 52). -/
structure RunResults where
  wait_times : List ℚ
  system_times : List ℚ
  completed_orders : List ℕ
deriving DecidableEq

/-- The tuple `run_simulation` returns (line 60). -/
structure SimOutput where
  avg_wait : ℚ
  avg_system : ℚ
  throughput : ℚ
  results : RunResults
deriving DecidableEq

/-- Sum of a list of rationals. -/
def qsum (l : List ℚ) : ℚ := l.foldr (· + ·) 0

/-- `statistics.mean` on a non-empty list of rationals. -/
def pymean (l : List ℚ) : ℚ := qsum l / l.length

/-- The summary `run_simulation` builds once the engine stops
(lines 56--60): conditional means, and throughput
`len(completed_orders) / (sim_duration / 60.0)` -- orders per hour for a
horizon measured in minutes. -/
def mkOutput (num_drivers : ℤ) (sim_duration : ℚ)
    (draws : List (ℚ × ℚ)) : SimOutput :=
  let completed := completedOrders num_drivers sim_duration draws
  let wait_times := completed.map (fun r => r.start - r.arrival)
  let system_times := completed.map (fun r => r.finish - r.arrival)
  { avg_wait := if wait_times.isEmpty then 0 else pymean wait_times
    avg_system := if system_times.isEmpty then 0 else pymean system_times
    throughput := (completed.length : ℚ) / (sim_duration / 60)
    results :=
      { wait_times := wait_times
        system_times := system_times
        completed_orders := completed.map (fun r => r.id) } }

/-- `run_simulation(num_drivers, arrival_rate, service_mean, sim_duration)`
(lines 49--60), with the validation performed by the spec-modelled
components hoisted to the front: a non-positive pool capacity or a
negative horizon is an `InvalidConfiguration` (spec sections 4.4, 7); a
non-positive rate reaching the sampler is an `InvalidParameter`
(section 4.3), and the first inter-arrival draw happens at virtual time 0
in every run, so a bad `arrival_rate` always surfaces; a zero horizon
reaches the unconditional division `sim_duration / 60.0` at line 58 with a
zero divisor.  For every run in which the corresponding draw or division
is executed this agrees with the in-line failure of the Python code. -/
def run_simulation (num_drivers : ℤ) (arrival_rate service_mean sim_duration : ℚ)
    (draws : List (ℚ × ℚ)) : Except SimError SimOutput :=
  if num_drivers ≤ 0 then .error .invalidConfiguration
  else if sim_duration < 0 then .error .invalidConfiguration
  else if arrival_rate ≤ 0 then .error .invalidParameter
  else if service_mean = 0 then .error .zeroDivisionError
  else if service_mean < 0 then .error .invalidParameter
  else if sim_duration = 0 then .error .zeroDivisionError
  else .ok (mkOutput num_drivers sim_duration draws)

/-! ## Lemmas about the driver free-time list -/

theorem listMin_le {l : List ℚ} {x : ℚ} (hx : x ∈ l) : listMin l ≤ x := by
  induction l with
  | nil => cases hx
  | cons a as ih =>
    cases as with
    | nil =>
      rcases List.mem_singleton.mp hx with rfl
      simp [listMin]
    | cons b bs =>
      rcases List.mem_cons.mp hx with rfl | hx'
      · exact min_le_left _ _
      · exact le_trans (min_le_right _ _) (ih hx')

theorem le_listMin {l : List ℚ} {c : ℚ} (hne : l ≠ []) (h : ∀ x ∈ l, c ≤ x) :
    c ≤ listMin l := by
  induction l with
  | nil => exact absurd rfl hne
  | cons a as ih =>
    cases as with
    | nil => simpa [listMin] using h a (List.mem_cons_self a [])
    | cons b bs =>
      simp only [listMin]
      exact le_min (h a (List.mem_cons_self a _))
        (ih (List.cons_ne_nil b bs) fun x hx => h x (List.mem_cons_of_mem _ hx))

theorem mem_replaceFirst {l : List ℚ} {m v y : ℚ}
    (hy : y ∈ replaceFirst l m v) : y ∈ l ∨ y = v := by
  induction l with
  | nil => simp [replaceFirst] at hy
  | cons x xs ih =>
    simp only [replaceFirst] at hy
    split at hy
    · rcases List.mem_cons.mp hy with rfl | h'
      · exact Or.inr rfl
      · exact Or.inl (List.mem_cons_of_mem _ h')
    · rcases List.mem_cons.mp hy with rfl | h'
      · exact Or.inl (List.mem_cons_self _ _)
      · rcases ih h' with h | h
        · exact Or.inl (List.mem_cons_of_mem _ h)
        · exact Or.inr h

theorem replaceFirst_ne_nil {l : List ℚ} (hne : l ≠ []) (m v : ℚ) :
    replaceFirst l m v ≠ [] := by
  cases l with
  | nil => exact absurd rfl hne
  | cons x xs =>
    simp only [replaceFirst]
    split <;> simp

theorem replaceMin_ne_nil {l : List ℚ} (hne : l ≠ []) (v : ℚ) :
    replaceMin l v ≠ [] :=
  replaceFirst_ne_nil hne _ _

theorem listMin_le_replaceMin {l : List ℚ} {v : ℚ} (hne : l ≠ [])
    (hv : listMin l ≤ v) : listMin l ≤ listMin (replaceMin l v) :=
  le_listMin (replaceMin_ne_nil hne v) fun _ hy =>
    (mem_replaceFirst hy).elim (fun h => listMin_le h) (fun h => h ▸ hv)

/-! ## The completion-order sort is a permutation -/

theorem insertByCompletion_perm (r : OrderRec) (l : List OrderRec) :
    (insertByCompletion r l).Perm (r :: l) := by
  induction l with
  | nil => exact List.Perm.refl _
  | cons x xs ih =>
    simp only [insertByCompletion]
    split
    · exact List.Perm.refl _
    · exact (ih.cons x).trans (List.Perm.swap r x xs)

theorem sortByCompletion_perm (l : List OrderRec) :
    (sortByCompletion l).Perm l := by
  induction l with
  | nil => exact List.Perm.refl _
  | cons x xs ih =>
    exact (insertByCompletion_perm x (sortByCompletion xs)).trans (ih.cons x)

theorem mem_completedOrders {nd : ℤ} {T : ℚ} {draws : List (ℚ × ℚ)}
    {r : OrderRec} (h : r ∈ completedOrders nd T draws) :
    r ∈ spawnedOrders nd T draws ∧ r.finish ≤ T := by
  unfold completedOrders at h
  have h' := (sortByCompletion_perm _).mem_iff.mp h
  have h'' := List.mem_filter.mp h'
  exact ⟨h''.1, by simpa using h''.2⟩

/-! ## Structural lemmas about the simulation core -/

theorem simCore_ids (T : ℚ) (draws : List (ℚ × ℚ)) :
    ∀ (clock : ℚ) (k : ℕ) (frees : List ℚ),
      (simCore T draws clock k frees).map OrderRec.id =
        List.range' k (simCore T draws clock k frees).length := by
  induction draws with
  | nil => intro clock k frees; simp [simCore]
  | cons p rest ih =>
    intro clock k frees
    obtain ⟨a, s⟩ := p
    simp only [simCore]
    split
    · simp only [List.map_cons, List.length_cons, List.range'_succ]
      rw [ih]
    · simp

theorem simCore_mem_bounds (T : ℚ) (draws : List (ℚ × ℚ)) :
    ∀ (clock : ℚ) (k : ℕ) (frees : List ℚ),
      (∀ p ∈ draws, 0 ≤ p.1 ∧ 0 ≤ p.2) →
      ∀ r ∈ simCore T draws clock k frees,
        r.arrival ≤ r.start ∧ r.start ≤ r.finish := by
  induction draws with
  | nil => intro _ _ _ _ r hr; simp [simCore] at hr
  | cons p rest ih =>
    intro clock k frees hd r hr
    obtain ⟨a, s⟩ := p
    have ha : 0 ≤ a ∧ 0 ≤ s := by
      simpa using hd (a, s) (List.mem_cons_self _ _)
    simp only [simCore] at hr
    split at hr
    · rcases List.mem_cons.mp hr with rfl | hr'
      · exact ⟨le_max_left _ _, le_add_of_nonneg_right ha.2⟩
      · exact ih _ _ _ (fun q hq => hd q (List.mem_cons_of_mem _ hq)) r hr'
    · cases hr

theorem simCore_start_lb (T : ℚ) (draws : List (ℚ × ℚ)) :
    ∀ (clock : ℚ) (k : ℕ) (frees : List ℚ), frees ≠ [] →
      (∀ p ∈ draws, 0 ≤ p.1 ∧ 0 ≤ p.2) →
      ∀ r ∈ simCore T draws clock k frees,
        max clock (listMin frees) ≤ r.start := by
  induction draws with
  | nil => intro _ _ _ _ _ r hr; simp [simCore] at hr
  | cons p rest ih =>
    intro clock k frees hne hd r hr
    obtain ⟨a, s⟩ := p
    have ha : 0 ≤ a ∧ 0 ≤ s := by
      simpa using hd (a, s) (List.mem_cons_self _ _)
    simp only [simCore] at hr
    split at hr
    · rcases List.mem_cons.mp hr with rfl | hr'
      · exact max_le_max (le_add_of_nonneg_right ha.1) le_rfl
      · have h1 : listMin frees ≤
            listMin (replaceMin frees (max (clock + a) (listMin frees) + s)) :=
          listMin_le_replaceMin hne
            (le_trans (le_max_right _ _) (le_add_of_nonneg_right ha.2))
        have h2 := ih (clock + a) (k + 1) _ (replaceMin_ne_nil hne _)
          (fun q hq => hd q (List.mem_cons_of_mem _ hq)) r hr'
        exact le_trans (max_le_max (le_add_of_nonneg_right ha.1) h1) h2
    · cases hr

theorem simCore_start_pairwise (T : ℚ) (draws : List (ℚ × ℚ)) :
    ∀ (clock : ℚ) (k : ℕ) (frees : List ℚ), frees ≠ [] →
      (∀ p ∈ draws, 0 ≤ p.1 ∧ 0 ≤ p.2) →
      List.Pairwise (fun r₁ r₂ => r₁.start ≤ r₂.start)
        (simCore T draws clock k frees) := by
  induction draws with
  | nil => intro _ _ _ _ _; simp [simCore]
  | cons p rest ih =>
    intro clock k frees hne hd
    obtain ⟨a, s⟩ := p
    have ha : 0 ≤ a ∧ 0 ≤ s := by
      simpa using hd (a, s) (List.mem_cons_self _ _)
    simp only [simCore]
    split
    · refine List.Pairwise.cons ?_
        (ih _ _ _ (replaceMin_ne_nil hne _)
          (fun q hq => hd q (List.mem_cons_of_mem _ hq)))
      intro r hr
      have h1 : listMin frees ≤
          listMin (replaceMin frees (max (clock + a) (listMin frees) + s)) :=
        listMin_le_replaceMin hne
          (le_trans (le_max_right _ _) (le_add_of_nonneg_right ha.2))
      have h2 := simCore_start_lb T rest (clock + a) (k + 1) _
        (replaceMin_ne_nil hne _)
        (fun q hq => hd q (List.mem_cons_of_mem _ hq)) r hr
      exact le_trans (max_le_max le_rfl h1) h2
    · exact List.Pairwise.nil

/-! ## Unfolding the runner on a successful run -/

theorem run_simulation_ok {nd : ℤ} {ar sm T : ℚ} {draws : List (ℚ × ℚ)}
    {out : SimOutput} (h : run_simulation nd ar sm T draws = .ok out) :
    0 < nd ∧ 0 < ar ∧ 0 < sm ∧ 0 < T ∧ out = mkOutput nd T draws := by
  unfold run_simulation at h
  split_ifs at h with h1 h2 h3 h4 h5 h6
  refine ⟨by omega, not_le.mp h3, ?_, ?_, ?_⟩
  · exact lt_of_le_of_ne (not_lt.mp h5) (Ne.symm h4)
  · exact lt_of_le_of_ne (not_lt.mp h2) (Ne.symm h6)
  · cases h; rfl

theorem mkOutput_wait_times (nd : ℤ) (T : ℚ) (draws : List (ℚ × ℚ)) :
    (mkOutput nd T draws).results.wait_times =
      (completedOrders nd T draws).map (fun r => r.start - r.arrival) := rfl

theorem mkOutput_system_times (nd : ℤ) (T : ℚ) (draws : List (ℚ × ℚ)) :
    (mkOutput nd T draws).results.system_times =
      (completedOrders nd T draws).map (fun r => r.finish - r.arrival) := rfl

theorem mkOutput_completed (nd : ℤ) (T : ℚ) (draws : List (ℚ × ℚ)) :
    (mkOutput nd T draws).results.completed_orders =
      (completedOrders nd T draws).map (fun r => r.id) := rfl

theorem mkOutput_throughput (nd : ℤ) (T : ℚ) (draws : List (ℚ × ℚ)) :
    (mkOutput nd T draws).throughput =
      ((completedOrders nd T draws).length : ℚ) / (T / 60) := rfl

theorem mkOutput_avg_wait (nd : ℤ) (T : ℚ) (draws : List (ℚ × ℚ)) :
    (mkOutput nd T draws).avg_wait =
      if (mkOutput nd T draws).results.wait_times.isEmpty then 0
      else pymean (mkOutput nd T draws).results.wait_times := rfl

theorem mkOutput_avg_system (nd : ℤ) (T : ℚ) (draws : List (ℚ × ℚ)) :
    (mkOutput nd T draws).avg_system =
      if (mkOutput nd T draws).results.system_times.isEmpty then 0
      else pymean (mkOutput nd T draws).results.system_times := rfl

/-! ## Concrete runs used as witnesses -/

/-- One driver, one order: arrival at 1, immediate grant, service 1,
completion at 2, horizon 480. -/
theorem runA_eval :
    run_simulation 1 1 1 480 [(1, 1)] = .ok ⟨0, 1, 1/8, ⟨[0], [1], [1]⟩⟩ := by
  norm_num [run_simulation, mkOutput, completedOrders, spawnedOrders, simCore,
    listMin, replaceMin, replaceFirst, sortByCompletion, insertByCompletion,
    qsum, pymean]

/-- One driver, one order arriving past the horizon: nothing completes. -/
theorem runB_eval :
    run_simulation 1 1 1 10 [(20, 5)] = .ok ⟨0, 0, 0, ⟨[], [], []⟩⟩ := by
  norm_num [run_simulation, mkOutput, completedOrders, spawnedOrders, simCore,
    listMin, replaceMin, replaceFirst, sortByCompletion, insertByCompletion,
    qsum, pymean]

/-- One driver, two orders: the second arrives at 2 but is granted only at
6, when the first finishes its service. -/
theorem spawnB_eval :
    spawnedOrders 1 480 [(1, 5), (1, 3)] = [⟨1, 1, 1, 6⟩, ⟨2, 2, 6, 9⟩] := by
  norm_num [spawnedOrders, simCore, listMin, replaceMin, replaceFirst]

/-! ## The claims -/

/-- C1, counterexample: `run_simulation` with one driver, one completed
order and horizon 480 returns throughput `1/8` (orders per hour), not
`completedCount / horizon = 1/480`: the returned throughput is not
`completedCount / horizon`. -/
theorem throughput_claim_counterexample :
    run_simulation 1 1 1 480 [(1, 1)] = .ok ⟨0, 1, 1/8, ⟨[0], [1], [1]⟩⟩
    ∧ (1 / 8 : ℚ) ≠ (([1] : List ℕ).length : ℚ) / 480 :=
  ⟨runA_eval, by norm_num⟩

/-- C1, amended: for every run with horizon > 0 that returns a result, the
returned throughput equals `completedCount / (horizon / 60)` -- orders per
hour, the horizon being in minutes -- where `completedCount` is the length
of the completed-order-ids sequence. -/
theorem throughput_per_hour (nd : ℤ) (ar sm T : ℚ) (draws : List (ℚ × ℚ))
    (out : SimOutput) (_hT : 0 < T)
    (h : run_simulation nd ar sm T draws = .ok out) :
    out.throughput = (out.results.completed_orders.length : ℚ) / (T / 60) := by
  obtain ⟨-, -, -, -, rfl⟩ := run_simulation_ok h
  rw [mkOutput_throughput, mkOutput_completed, List.length_map]

/-- Witness for C1 at the concrete run `runA_eval`. -/
theorem throughput_per_hour_witness :
    (⟨0, 1, 1/8, ⟨[0], [1], [1]⟩⟩ : SimOutput).throughput =
      ((⟨0, 1, 1/8, ⟨[0], [1], [1]⟩⟩ : SimOutput).results.completed_orders.length : ℚ)
        / (480 / 60) :=
  throughput_per_hour 1 1 1 480 [(1, 1)] _ (by norm_num) runA_eval

/-- C2, counterexample: at horizon 0 the run does not complete without
error: it fails with the division-by-zero of `sim_duration / 60.0` at the
throughput computation (line 58), instead of returning
`completedCount = 0` and `throughput = 0`. -/
theorem horizon_zero_counterexample :
    run_simulation 5 (1/10) 30 0 [(1, 1)] = .error .zeroDivisionError := by
  norm_num [run_simulation]

/-- C2, amended: for horizon = 0 with a valid configuration, no event with
time > 0 ever executes and no results are returned: the run fails with a
division-by-zero when computing throughput (`throughput` is not defined as
0 at horizon 0). -/
theorem horizon_zero_division_error (nd : ℤ) (ar sm : ℚ)
    (draws : List (ℚ × ℚ)) (hnd : 0 < nd) (har : 0 < ar) (hsm : 0 < sm) :
    run_simulation nd ar sm 0 draws = .error .zeroDivisionError := by
  unfold run_simulation
  simp [not_le.mpr hnd, not_le.mpr har, hsm.ne', not_lt.mpr hsm.le]

/-- Witness for C2 at a concrete valid configuration. -/
theorem horizon_zero_division_error_witness :
    run_simulation 3 1 2 0 [] = .error .zeroDivisionError :=
  horizon_zero_division_error 3 1 2 [] (by norm_num) (by norm_num) (by norm_num)

/-- C3: a run with a non-positive number of drivers (including capacity 0)
or a negative horizon fails with `InvalidConfiguration` and produces no
partial results (the error carries no output). -/
theorem invalid_configuration_rejected (nd : ℤ) (ar sm T : ℚ)
    (draws : List (ℚ × ℚ)) (h : nd ≤ 0 ∨ T < 0) :
    run_simulation nd ar sm T draws = .error .invalidConfiguration := by
  unfold run_simulation
  rcases h with h | h
  · simp [h]
  · rcases le_or_lt nd 0 with h' | h'
    · simp [h']
    · simp [h, not_le.mpr h']

/-- Witness for C3 at capacity 0. -/
theorem invalid_configuration_rejected_witness :
    run_simulation 0 1 30 480 [] = .error .invalidConfiguration :=
  invalid_configuration_rejected 0 1 30 480 [] (Or.inl le_rfl)

/-- C4: the exponential draw fails with `InvalidParameter` on a
non-positive rate, and on a positive rate returns the (non-negative)
sample produced by the exponential source; the inter-arrival draw passes
rate `arrival_rate` and the service draw passes rate `1 / service_mean`. -/
theorem expovariate_contract (rate u : ℚ) (hu : 0 ≤ u) :
    (rate ≤ 0 → expovariate rate u = .error .invalidParameter)
    ∧ (0 < rate → expovariate rate u = .ok u ∧ 0 ≤ u)
    ∧ (∀ ar : ℚ, interarrival_sample ar u = expovariate ar u)
    ∧ (∀ sm : ℚ, sm ≠ 0 → service_sample sm u = expovariate (1 / sm) u) := by
  refine ⟨fun h => ?_, fun h => ⟨?_, hu⟩, fun ar => rfl, fun sm hsm => ?_⟩
  · simp [expovariate, h]
  · simp [expovariate, not_le.mpr h]
  · simp [service_sample, hsm]

/-- Witness for C4: a rejected non-positive rate and an accepted draw. -/
theorem expovariate_contract_witness :
    expovariate (-1) 0 = .error .invalidParameter ∧ expovariate 2 3 = .ok 3 :=
  ⟨(expovariate_contract (-1) 0 le_rfl).1 (by norm_num),
    ((expovariate_contract 2 3 (by norm_num)).2.1 (by norm_num)).1⟩

/-- C5: a successful run in which the wait-times and system-times
sequences are empty reports both means as 0 rather than failing. -/
theorem empty_results_zero_means (nd : ℤ) (ar sm T : ℚ)
    (draws : List (ℚ × ℚ)) (out : SimOutput)
    (h : run_simulation nd ar sm T draws = .ok out)
    (hw : out.results.wait_times = []) (hs : out.results.system_times = []) :
    out.avg_wait = 0 ∧ out.avg_system = 0 := by
  obtain ⟨-, -, -, -, rfl⟩ := run_simulation_ok h
  constructor
  · rw [mkOutput_avg_wait, hw]; simp
  · rw [mkOutput_avg_system, hs]; simp

/-- Witness for C5 at the empty run `runB_eval`. -/
theorem empty_results_zero_means_witness :
    (⟨0, 0, 0, ⟨[], [], []⟩⟩ : SimOutput).avg_wait = 0 ∧
      (⟨0, 0, 0, ⟨[], [], []⟩⟩ : SimOutput).avg_system = 0 :=
  empty_results_zero_means 1 1 1 10 [(20, 5)] _ runB_eval rfl rfl

/-- C6: every completed order of a successful run has a non-negative
recorded wait time and a recorded system time at least its wait time. -/
theorem wait_system_bounds (nd : ℤ) (ar sm T : ℚ) (draws : List (ℚ × ℚ))
    (out : SimOutput) (hd : ∀ p ∈ draws, 0 ≤ p.1 ∧ 0 ≤ p.2)
    (h : run_simulation nd ar sm T draws = .ok out) (i : ℕ)
    (hi : i < out.results.wait_times.length)
    (hj : i < out.results.system_times.length) :
    0 ≤ out.results.wait_times[i] ∧
      out.results.wait_times[i] ≤ out.results.system_times[i] := by
  obtain ⟨-, -, -, -, rfl⟩ := run_simulation_ok h
  simp only [mkOutput_wait_times, mkOutput_system_times, List.length_map]
    at hi hj ⊢
  simp only [List.getElem_map]
  have hmem : (completedOrders nd T draws)[i] ∈ completedOrders nd T draws :=
    List.getElem_mem hi
  have hb := simCore_mem_bounds T draws 0 1 _ hd _ (mem_completedOrders hmem).1
  exact ⟨sub_nonneg.mpr hb.1, sub_le_sub_right hb.2 _⟩

/-- Witness for C6 at the concrete run `runA_eval` (wait 0, system 1). -/
theorem wait_system_bounds_witness :
    0 ≤ (⟨0, 1, 1/8, ⟨[0], [1], [1]⟩⟩ : SimOutput).results.wait_times[0] ∧
      (⟨0, 1, 1/8, ⟨[0], [1], [1]⟩⟩ : SimOutput).results.wait_times[0] ≤
        (⟨0, 1, 1/8, ⟨[0], [1], [1]⟩⟩ : SimOutput).results.system_times[0] :=
  wait_system_bounds 1 1 1 480 [(1, 1)] _ (by norm_num) runA_eval 0
    (by norm_num) (by norm_num)

/-- C7: within a run the arrival process assigns ids 1, 2, 3, ...: the
k-th spawned order receives id k, strictly increasing, no gaps, no
reuse. -/
theorem order_ids_sequential (nd : ℤ) (T : ℚ) (draws : List (ℚ × ℚ)) :
    (spawnedOrders nd T draws).map OrderRec.id =
      List.range' 1 (spawnedOrders nd T draws).length :=
  simCore_ids T draws 0 1 _

/-- C8: FIFO grants: for any two spawned orders of a run, the one whose
request reached the pool earlier is granted a driver no later than the
other, whatever the (non-negative) service times are. -/
theorem fifo_grant_order (nd : ℤ) (T : ℚ) (draws : List (ℚ × ℚ))
    (hnd : 0 < nd) (hd : ∀ p ∈ draws, 0 ≤ p.1 ∧ 0 ≤ p.2)
    (i j : ℕ) (hij : i ≤ j) (hj : j < (spawnedOrders nd T draws).length) :
    ((spawnedOrders nd T draws).get ⟨i, lt_of_le_of_lt hij hj⟩).start ≤
      ((spawnedOrders nd T draws).get ⟨j, hj⟩).start := by
  rcases eq_or_lt_of_le hij with rfl | hlt
  · exact le_rfl
  · have hne : List.replicate nd.toNat (0 : ℚ) ≠ [] := by
      have hz : nd.toNat ≠ 0 := by omega
      simp [hz]
    have hp := simCore_start_pairwise T draws 0 1
      (List.replicate nd.toNat 0) hne hd
    exact List.pairwise_iff_get.mp hp ⟨i, lt_of_le_of_lt hij hj⟩ ⟨j, hj⟩ hlt

/-- Witness for C8: with one driver, the order arriving at 1 is granted at
1, before the order arriving at 2 is granted at 6. -/
theorem fifo_grant_order_witness :
    ((spawnedOrders 1 480 [(1, 5), (1, 3)]).get
        ⟨0, by rw [spawnB_eval]; norm_num⟩).start ≤
      ((spawnedOrders 1 480 [(1, 5), (1, 3)]).get
        ⟨1, by rw [spawnB_eval]; norm_num⟩).start :=
  fifo_grant_order 1 480 [(1, 5), (1, 3)] (by norm_num) (by norm_num) 0 1
    (by norm_num) (by rw [spawnB_eval]; norm_num)

/-- C9: the simulation is a deterministic function of its configuration
plus the random draws: two runs with identical configuration and an
identical draw sequence return identical outputs, in particular identical
wait-times, system-times and completed-order-ids sequences. -/
theorem run_deterministic (nd₁ nd₂ : ℤ) (ar₁ ar₂ sm₁ sm₂ T₁ T₂ : ℚ)
    (d₁ d₂ : List (ℚ × ℚ)) (hnd : nd₁ = nd₂) (har : ar₁ = ar₂)
    (hsm : sm₁ = sm₂) (hT : T₁ = T₂) (hd : d₁ = d₂) :
    run_simulation nd₁ ar₁ sm₁ T₁ d₁ = run_simulation nd₂ ar₂ sm₂ T₂ d₂ := by
  subst hnd; subst har; subst hsm; subst hT; subst hd; rfl

/-- Witness for C9 at a concrete configuration and draw sequence. -/
theorem run_deterministic_witness :
    run_simulation 5 (1/10) 30 480 [(10, 25)] =
      run_simulation 5 (1/10) 30 480 [(10, 25)] :=
  run_deterministic 5 5 (1/10) (1/10) 30 30 480 480 [(10, 25)] [(10, 25)]
    rfl rfl rfl rfl rfl

/-- C10: in any successful run the three result sequences have equal
length, the i-th entries of all three were appended together by one
completed order, and an order that does not finish within the horizon
appears in none of them. -/
theorem results_aligned (nd : ℤ) (ar sm T : ℚ) (draws : List (ℚ × ℚ))
    (out : SimOutput) (h : run_simulation nd ar sm T draws = .ok out) :
    out.results.wait_times.length = out.results.completed_orders.length
    ∧ out.results.system_times.length = out.results.completed_orders.length
    ∧ (∀ i, i < out.results.completed_orders.length →
        ∃ r ∈ completedOrders nd T draws, r.finish ≤ T ∧
          out.results.wait_times[i]? = some (r.start - r.arrival) ∧
          out.results.system_times[i]? = some (r.finish - r.arrival) ∧
          out.results.completed_orders[i]? = some r.id)
    ∧ ∀ r ∈ spawnedOrders nd T draws, T < r.finish →
        r.id ∉ out.results.completed_orders := by
  obtain ⟨-, -, -, -, rfl⟩ := run_simulation_ok h
  simp only [mkOutput_wait_times, mkOutput_system_times, mkOutput_completed]
  refine ⟨by simp, by simp, ?_, ?_⟩
  · intro i hi
    simp only [List.length_map] at hi
    refine ⟨(completedOrders nd T draws)[i], List.getElem_mem hi,
      (mem_completedOrders (List.getElem_mem hi)).2, ?_, ?_, ?_⟩
    all_goals simp [List.getElem?_eq_getElem hi]
  · intro r hr hrT hmem
    rcases List.mem_map.mp hmem with ⟨r', hr', hid⟩
    have h2 := mem_completedOrders hr'
    have hnodup : ((spawnedOrders nd T draws).map OrderRec.id).Nodup := by
      unfold spawnedOrders
      rw [simCore_ids T draws 0 1]
      exact List.nodup_range' _ _
    have heq : r' = r := List.inj_on_of_nodup_map hnodup h2.1 hr hid
    rw [heq] at h2
    exact absurd h2.2 (not_le.mpr hrT)

/-- Witness for C10: length agreement at the concrete run `runA_eval`. -/
theorem results_aligned_witness :
    (⟨0, 1, 1/8, ⟨[0], [1], [1]⟩⟩ : SimOutput).results.wait_times.length =
      (⟨0, 1, 1/8, ⟨[0], [1], [1]⟩⟩ : SimOutput).results.completed_orders.length :=
  (results_aligned 1 1 1 480 [(1, 1)] _ runA_eval).1

end FoodSim
